import Mathlib

/-
Verification of the metaclass tutorial notebook
`pythess/meta_alltheway/meta_alltheway.ipynb`.

Python strings are modelled as lists of Unicode code points (`List Nat`),
Python dicts as insertion-ordered association lists, and the notebook cells
as pure functions over these.
-/

set_option autoImplicit false

namespace Pythess

/-- A Python string, modelled as its list of Unicode code points. -/
abbrev PyStr := List Nat

/-- Code points of a Lean string literal, used to write concrete Python strings. -/
def pyStr (s : String) : PyStr := s.data.map Char.toNat

/-- ASCII uppercase letter, the regex character class `[A-Z]`. -/
def isUpperA (n : Nat) : Bool := 65 ≤ n && n ≤ 90

/-- ASCII lowercase letter, the regex character class `[a-z]`. -/
def isLowerA (n : Nat) : Bool := 97 ≤ n && n ≤ 122

/-- ASCII lowercase letter or digit, the regex character class `[a-z0-9]`. -/
def isLowerDigitA (n : Nat) : Bool := isLowerA n || (48 ≤ n && n ≤ 57)

/-- `str.lower()` on one code point (ASCII case mapping). -/
def lowerChar (n : Nat) : Nat := if isUpperA n then n + 32 else n

/-- Split off the maximal leading run of ASCII lowercase letters
(the greedy `[a-z]+` of the first regex). -/
def spanLower : PyStr → PyStr × PyStr
  | [] => ([], [])
  | c :: cs =>
    if isLowerA c then
      let p := spanLower cs
      (c :: p.1, p.2)
    else ([], c :: cs)

/-- Is the first character an ASCII lowercase letter? -/
def headLowerA : PyStr → Bool
  | [] => false
  | c :: _ => isLowerA c

/-- One fuel-indexed pass of `re.sub((.)([A-Z][a-z]+), \1_\2, s)`:
scan left to right; at a match (any non-newline character, then an uppercase
letter, then a nonempty greedy lowercase run) insert `_` (code 95) after the
first character and resume after the match, as `re.sub` does with
non-overlapping matches. Fuel is consumed one unit per scanned position, so
fuel = length of the list always suffices. -/
def sub1F : Nat → PyStr → PyStr
  | 0, l => l
  | _ + 1, [] => []
  | _ + 1, [c] => [c]
  | fuel + 1, c1 :: c2 :: rest =>
    if (c1 != 10) && isUpperA c2 && headLowerA rest then
      let p := spanLower rest
      c1 :: 95 :: c2 :: (p.1 ++ sub1F fuel p.2)
    else
      c1 :: sub1F fuel (c2 :: rest)

/-- First substitution of `convert`. -/
def sub1 (l : PyStr) : PyStr := sub1F l.length l

/-- One fuel-indexed pass of `re.sub(([a-z0-9])([A-Z]), \1_\2, s)`:
insert `_` between a lowercase-or-digit character and an uppercase letter,
non-overlapping, resuming after the matched uppercase letter. -/
def sub2F : Nat → PyStr → PyStr
  | 0, l => l
  | _ + 1, [] => []
  | _ + 1, [c] => [c]
  | fuel + 1, c1 :: c2 :: rest =>
    if isLowerDigitA c1 && isUpperA c2 then
      c1 :: 95 :: c2 :: sub2F fuel rest
    else
      c1 :: sub2F fuel (c2 :: rest)

/-- Second substitution of `convert`. -/
def sub2 (l : PyStr) : PyStr := sub2F l.length l

/-- The notebook function `convert`: two regex substitutions, then `.lower()`. -/
def convert (l : PyStr) : PyStr := (sub2 (sub1 l)).map lowerChar

/-- Lookup in a Python dict modelled as an insertion-ordered association list. -/
def alookup {K V : Type} [DecidableEq K] (k : K) : List (K × V) → Option V
  | [] => none
  | (k1, v1) :: rest => if k1 = k then some v1 else alookup k rest

/-- `d[k] = v` on a Python dict: overwrite in place if the key exists,
otherwise append at the end, preserving insertion order. -/
def dinsert {K V : Type} [DecidableEq K] (k : K) (v : V) : List (K × V) → List (K × V)
  | [] => [(k, v)]
  | (k1, v1) :: rest => if k1 = k then (k, v) :: rest else (k1, v1) :: dinsert k v rest

/-- `s.startswith("__")` on a code-point string (95 is the underscore). -/
def startsDunder : PyStr → Bool
  | 95 :: 95 :: _ => true
  | _ => false

/-- The dict built by the function metaclass `camel_to_snake_case`: iterate over
`attrs.items()`; a key not starting with `__` is inserted under `convert` of the
key, a dunder key is inserted unchanged. -/
def camel_to_snake_case_attrs {V : Type} (attrs : List (PyStr × V)) : List (PyStr × V) :=
  attrs.foldl
    (fun acc kv =>
      if !startsDunder kv.1 then dinsert (convert kv.1) kv.2 acc
      else dinsert kv.1 kv.2 acc) []

/-- The line printed by `camel_to_snake_case` before it builds the class. -/
def camel_to_snake_case_message (name : PyStr) : PyStr :=
  pyStr "Calling the metaclass camel_to_snake_case to construct class: " ++ name

/-- The dict built by `CamelToSnake.__new__`: same loop, except that the source
tests `name.startswith("__")` — the class name, not the attribute key — so for
a class whose name does not start with `__` every key, dunders included, goes
through `convert`. -/
def CamelToSnake_new_attrs {V : Type} (name : PyStr) (attrs : List (PyStr × V)) :
    List (PyStr × V) :=
  attrs.foldl
    (fun acc kv =>
      if !startsDunder name then dinsert (convert kv.1) kv.2 acc
      else dinsert kv.1 kv.2 acc) []

/-- Python string order: lexicographic comparison of code points. -/
def lexLe : PyStr → PyStr → Bool
  | [], _ => true
  | _ :: _, [] => false
  | a :: as, b :: bs => if a < b then true else if b < a then false else lexLe as bs

/-- Insert a string into an already sorted list of strings. -/
def insortStr (s : PyStr) : List PyStr → List PyStr
  | [] => [s]
  | t :: ts => if lexLe s t then s :: t :: ts else t :: insortStr s ts

/-- `sorted` on a list of strings (insertion sort by code-point order). -/
def sortStrs (l : List PyStr) : List PyStr := l.foldr insortStr []

/-- The list printed by `[a for a in dir(MyVector) if not a.startswith("__")]`:
`dir` merges the class dict keys with the attributes inherited from `object`,
all of which start with `__`, and sorts; filtering out dunder names therefore
leaves exactly the sorted non-dunder keys of the class dict. -/
def dirNonDunder {V : Type} (attrs : List (PyStr × V)) : List PyStr :=
  sortStrs ((attrs.map Prod.fst).filter (fun k => !startsDunder k))

/-- The class-body namespace of `MyVector` as handed to its metaclass:
`__module__` and `__qualname__` are inserted by the class machinery before the
body runs, then the five camelCase methods in definition order. Values are
opaque tags. -/
def myVectorAttrs : List (PyStr × Nat) :=
  [(pyStr "__module__", 0), (pyStr "__qualname__", 1),
   (pyStr "addToVector", 2), (pyStr "subtractFromVector", 3),
   (pyStr "calculateDotProduct", 4), (pyStr "calculateCrossProduct", 5),
   (pyStr "calculateTripleProduct", 6)]

/-- The documented console list of snake_cased method names. -/
def snakeNames : List PyStr :=
  [pyStr "add_to_vector", pyStr "calculate_cross_product",
   pyStr "calculate_dot_product", pyStr "calculate_triple_product",
   pyStr "subtract_from_vector"]

/-- The mutable state behind the `Singleton` metaclass: the shared dict
`Singleton._instances`, keyed by the class being instantiated, together with a
fresh-identity counter modelling that each run of `super().__call__` builds a
brand-new object. Instances are identified by their allocation number, so two
instances are "the same object" (`is`) exactly when their numbers are equal. -/
structure SingletonState (K : Type) where
  instances : List (K × Nat)
  nextId : Nat

/-- `Singleton.__call__(cls, *args, **kwargs)`: if `cls` is not a key of the
shared `_instances` dict, run `super().__call__` (allocating a fresh instance,
which is the only place `cls.__new__` and `cls.__init__` run — recorded by the
returned Bool) and cache it under `cls`; then return `_instances[cls]`. The
constructor arguments are accepted but play no part in the cache decision. -/
def singletonCall {K A : Type} [DecidableEq K] (cls : K) (_args : A)
    (st : SingletonState K) : Option Nat × SingletonState K × Bool :=
  if (alookup cls st.instances).isNone then
    let st1 : SingletonState K := ⟨dinsert cls st.nextId st.instances, st.nextId + 1⟩
    (alookup cls st1.instances, st1, true)
  else
    (alookup cls st.instances, st, false)

/-- Run a sequence of singleton instantiations (of arbitrary classes with
arbitrary arguments), threading the shared state. -/
def runCalls {K A : Type} [DecidableEq K] (calls : List (K × A))
    (st : SingletonState K) : SingletonState K :=
  calls.foldl (fun s ca => (singletonCall ca.1 ca.2 s).2.1) st

/-- Modelled from the spec: the metaclass `ABCMeta` lives in the Python
standard library, not in this repository; the spec describes an abstract base
class as "a class that declares methods subclasses must override, enforced at
instantiation time". A class object here carries its name and its
`__abstractmethods__` set. -/
structure ABClass where
  name : PyStr
  abstractmethods : List PyStr

/-- Modelled from the spec: class creation under `ABCMeta`. Each attribute of
the class body carries a flag saying whether it is decorated `@abstractmethod`.
The new class records as abstract its own attributes so marked, plus every
abstract method of the bases that the body does not override. Creation itself
never fails. -/
def abcNew (name : PyStr) (baseAbstract : List PyStr)
    (attrs : List (PyStr × Bool)) : ABClass :=
  ⟨name,
   (attrs.filter (fun kv => kv.2)).map Prod.fst
     ++ baseAbstract.filter (fun m => (alookup m attrs).isNone)⟩

/-- `", ".join` on code-point strings. -/
def joinSep (sep : PyStr) : List PyStr → PyStr
  | [] => []
  | [s] => s
  | s :: rest => s ++ sep ++ joinSep sep rest

/-- Modelled from the spec: the TypeError message raised when instantiating an
abstract class, as documented by the cell output — the abstract method names
sorted and joined with ", ". (39 is the apostrophe code point.) -/
def abcErrMsg (c : ABClass) : PyStr :=
  pyStr "Can" ++ [39] ++ pyStr "t instantiate abstract class " ++ c.name
    ++ pyStr " with abstract methods " ++ joinSep (pyStr ", ") (sortStrs c.abstractmethods)

/-- Modelled from the spec: instantiating a class under `ABCMeta`. If the
class still has abstract methods the call raises `TypeError` with the message
above; otherwise construction succeeds. -/
def abcInstantiate (c : ABClass) : Except PyStr ABClass :=
  if c.abstractmethods.isEmpty then Except.ok c else Except.error (abcErrMsg c)

/-- The cell defining `Vehicle(metaclass=ABCMeta)` with abstract methods
`change_gear` and `start_engine`. -/
def vehicleClass : ABClass :=
  abcNew (pyStr "Vehicle") []
    [(pyStr "__module__", false), (pyStr "__qualname__", false),
     (pyStr "change_gear", true), (pyStr "start_engine", true)]

/-- The cell defining `Car(Vehicle)`, whose body overrides only `__init__`. -/
def carClass : ABClass :=
  abcNew (pyStr "Car") vehicleClass.abstractmethods
    [(pyStr "__module__", false), (pyStr "__qualname__", false),
     (pyStr "__init__", false)]

/-- Lowercasing never produces an ASCII uppercase letter. -/
theorem isUpperA_lowerChar (n : Nat) : isUpperA (lowerChar n) = false := by
  simp only [lowerChar, isUpperA]
  split
  · rename_i h
    simp only [isUpperA, Bool.and_eq_true, decide_eq_true_eq] at h
    simp only [Bool.and_eq_false_iff, decide_eq_false_iff_not]
    omega
  · rename_i h
    simp only [isUpperA, Bool.and_eq_true, decide_eq_true_eq, not_and] at h
    simp only [Bool.and_eq_false_iff, decide_eq_false_iff_not]
    omega

/-- Lowercasing fixes a character that is not an ASCII uppercase letter. -/
theorem lowerChar_of_not_upper {n : Nat} (h : isUpperA n = false) : lowerChar n = n := by
  simp [lowerChar, h]

/-- Lowercasing fixes a string with no ASCII uppercase letter. -/
theorem map_lowerChar_of_not_upper {l : PyStr} (h : ∀ c ∈ l, isUpperA c = false) :
    l.map lowerChar = l := by
  induction l with
  | nil => rfl
  | cons c cs ih =>
    simp only [List.map_cons]
    rw [lowerChar_of_not_upper (h c (List.mem_cons_self c cs)),
      ih (fun x hx => h x (List.mem_cons_of_mem c hx))]

/-- The first substitution fixes a string with no ASCII uppercase letter,
whatever the fuel. -/
theorem sub1F_of_not_upper (fuel : Nat) :
    ∀ l : PyStr, (∀ c ∈ l, isUpperA c = false) → sub1F fuel l = l := by
  induction fuel with
  | zero => intro l _; rfl
  | succ fuel ih =>
    intro l h
    match l with
    | [] => rfl
    | [c] => rfl
    | c1 :: c2 :: rest =>
      have hc2 : isUpperA c2 = false := h c2 (by simp)
      have htail : ∀ c ∈ c2 :: rest, isUpperA c = false :=
        fun c hc => h c (List.mem_cons_of_mem c1 hc)
      simp [sub1F, hc2, ih (c2 :: rest) htail]

/-- The second substitution fixes a string with no ASCII uppercase letter,
whatever the fuel. -/
theorem sub2F_of_not_upper (fuel : Nat) :
    ∀ l : PyStr, (∀ c ∈ l, isUpperA c = false) → sub2F fuel l = l := by
  induction fuel with
  | zero => intro l _; rfl
  | succ fuel ih =>
    intro l h
    match l with
    | [] => rfl
    | [c] => rfl
    | c1 :: c2 :: rest =>
      have hc2 : isUpperA c2 = false := h c2 (by simp)
      have htail : ∀ c ∈ c2 :: rest, isUpperA c = false :=
        fun c hc => h c (List.mem_cons_of_mem c1 hc)
      simp [sub2F, hc2, ih (c2 :: rest) htail]

/-- The output of `convert` contains no ASCII uppercase letter. -/
theorem convert_not_upper (l : PyStr) : ∀ c ∈ convert l, isUpperA c = false := by
  intro c hc
  unfold convert at hc
  obtain ⟨a, _, rfl⟩ := List.mem_map.mp hc
  exact isUpperA_lowerChar a

/-- `convert` fixes a string with no ASCII uppercase letter. -/
theorem convert_of_not_upper {l : PyStr} (h : ∀ c ∈ l, isUpperA c = false) :
    convert l = l := by
  unfold convert sub2 sub1
  rw [sub1F_of_not_upper _ _ h, sub2F_of_not_upper _ _ h, map_lowerChar_of_not_upper h]

/-- Looking up the key just inserted finds the inserted value. -/
theorem alookup_dinsert_self {K V : Type} [DecidableEq K] (k : K) (v : V)
    (l : List (K × V)) : alookup k (dinsert k v l) = some v := by
  induction l with
  | nil => simp [dinsert, alookup]
  | cons kv rest ih =>
    obtain ⟨k1, v1⟩ := kv
    by_cases h : k1 = k
    · subst h; simp [dinsert, alookup]
    · simp [dinsert, alookup, h, ih]

/-- Inserting under one key does not change lookups of another key. -/
theorem alookup_dinsert_of_ne {K V : Type} [DecidableEq K] {k1 k : K} (v : V)
    (l : List (K × V)) (h : k1 ≠ k) : alookup k1 (dinsert k v l) = alookup k1 l := by
  induction l with
  | nil => simp [dinsert, alookup, Ne.symm h]
  | cons kv rest ih =>
    obtain ⟨k2, v2⟩ := kv
    by_cases h2 : k2 = k
    · subst h2; simp [dinsert, alookup, Ne.symm h]
    · simp [dinsert, alookup, h2, ih]

/-- Inserting an absent key appends the pair at the end of the dict. -/
theorem dinsert_of_alookup_none {K V : Type} [DecidableEq K] {k : K} (v : V)
    {l : List (K × V)} (h : alookup k l = none) : dinsert k v l = l ++ [(k, v)] := by
  induction l with
  | nil => rfl
  | cons kv rest ih =>
    obtain ⟨k1, v1⟩ := kv
    by_cases hk : k1 = k
    · subst hk; simp [alookup] at h
    · simp only [alookup, if_neg hk] at h
      simp [dinsert, hk, ih h]

/-- The value returned by `Singleton.__call__` is the cache entry of the class
in the state the call leaves behind. -/
theorem singletonCall_fst_lookup {K A : Type} [DecidableEq K] (cls : K) (a : A)
    (st : SingletonState K) :
    (singletonCall cls a st).1 = alookup cls ((singletonCall cls a st).2.1).instances := by
  unfold singletonCall
  split <;> rfl

/-- `Singleton.__call__` always returns an instance. -/
theorem singletonCall_fst_isSome {K A : Type} [DecidableEq K] (cls : K) (a : A)
    (st : SingletonState K) : ((singletonCall cls a st).1).isSome = true := by
  unfold singletonCall
  split
  · simp [alookup_dinsert_self]
  · rename_i h
    cases hl : alookup cls st.instances with
    | none => rw [hl] at h; simp at h
    | some v => simp [hl]

/-- A `Singleton.__call__` for any class preserves every existing cache entry. -/
theorem singletonCall_preserves {K A : Type} [DecidableEq K] (c : K) (a : A)
    (st : SingletonState K) {k : K} {v : Nat} (h : alookup k st.instances = some v) :
    alookup k ((singletonCall c a st).2.1).instances = some v := by
  unfold singletonCall
  split
  · rename_i hnone
    by_cases hk : k = c
    · subst hk
      rw [h] at hnone
      simp at hnone
    · show alookup k (dinsert c st.nextId st.instances) = some v
      rw [alookup_dinsert_of_ne _ _ hk]
      exact h
  · exact h

/-- A whole sequence of singleton instantiations preserves every existing
cache entry. -/
theorem runCalls_preserves {K A : Type} [DecidableEq K] (calls : List (K × A))
    (st : SingletonState K) {k : K} {v : Nat} (h : alookup k st.instances = some v) :
    alookup k (runCalls calls st).instances = some v := by
  induction calls generalizing st with
  | nil => exact h
  | cons ca rest ih =>
    show alookup k (runCalls rest ((singletonCall ca.1 ca.2 st).2.1)).instances = some v
    exact ih _ (singletonCall_preserves ca.1 ca.2 st h)

/-- On a class already cached, `Singleton.__call__` returns the cached
instance, leaves the state unchanged and does not run the constructor. -/
theorem singletonCall_cached {K A : Type} [DecidableEq K] (cls : K) (a : A)
    (st : SingletonState K) {v : Nat} (h : alookup cls st.instances = some v) :
    singletonCall cls a st = (some v, st, false) := by
  unfold singletonCall
  rw [h]
  rfl

/-- On a class not yet cached, `Singleton.__call__` runs the constructor once,
appends the fresh instance to the cache and returns it. -/
theorem singletonCall_uncached {K A : Type} [DecidableEq K] (cls : K) (a : A)
    (st : SingletonState K) (h : alookup cls st.instances = none) :
    singletonCall cls a st
      = (some st.nextId, ⟨st.instances ++ [(cls, st.nextId)], st.nextId + 1⟩, true) := by
  unfold singletonCall
  rw [h]
  simp only [Option.isNone_none, if_true]
  rw [alookup_dinsert_self, dinsert_of_alookup_none _ h]

/-- C1: the cell defining `MyVector` with metaclass `CamelToSnake` prints
exactly the five snake_cased method names; and since `CamelToSnake.__new__`
tests `name.startswith("__")` rather than `attr_name.startswith("__")`,
`convert` is applied to every attribute key, dunders included. -/
theorem C1_CamelToSnake_cell_output :
    dirNonDunder (CamelToSnake_new_attrs (pyStr "MyVector") myVectorAttrs) = snakeNames
    ∧ CamelToSnake_new_attrs (pyStr "MyVector") myVectorAttrs
        = myVectorAttrs.foldl (fun acc kv => dinsert (convert kv.1) kv.2 acc) [] := by
  constructor <;> rfl

/-- C2: for a class whose metaclass is `Singleton`, any two instantiation
calls — a first call and any later call, with arbitrary other singleton
instantiations in between — return the identical cached object, and an object
is always returned; in particular `v1 = MyVector(); v2 = MyVector()` yields
`v1 is v2 == True`. -/
theorem C2_singleton_at_most_one_instance {K A : Type} [DecidableEq K]
    (cls : K) (a1 a2 : A) (st : SingletonState K) (others : List (K × A)) :
    (singletonCall cls a2 (runCalls others (singletonCall cls a1 st).2.1)).1
        = (singletonCall cls a1 st).1
    ∧ ((singletonCall cls a1 st).1).isSome = true := by
  refine ⟨?_, singletonCall_fst_isSome cls a1 st⟩
  obtain ⟨v, hv⟩ := Option.isSome_iff_exists.mp (singletonCall_fst_isSome cls a1 st)
  have h1 : alookup cls ((singletonCall cls a1 st).2.1).instances = some v := by
    rw [← singletonCall_fst_lookup]; exact hv
  have h2 := runCalls_preserves others _ h1
  rw [hv, singletonCall_cached cls a2 _ h2]

/-- C3: instantiating the abstract class `Car` raises a `TypeError` whose
message is exactly the documented
`Can't instantiate abstract class Car with abstract methods change_gear, start_engine`. -/
theorem C3_abstract_car_instantiation_error :
    abcInstantiate carClass
      = Except.error (pyStr "Can" ++ [39]
          ++ pyStr "t instantiate abstract class Car with abstract methods change_gear, start_engine") :=
  rfl

/-- C4: abstract-method enforcement happens at instantiation time, not at
class-definition time: the definition of `Car` succeeds and yields a class
object still carrying the two unoverridden abstract methods, the type-checking
failure occurs at the instantiation call, and a class with no remaining
abstract methods instantiates without error. -/
theorem C4_enforcement_at_instantiation_time :
    carClass = ⟨pyStr "Car", [pyStr "change_gear", pyStr "start_engine"]⟩
    ∧ abcInstantiate carClass = Except.error (abcErrMsg carClass)
    ∧ (∀ c : ABClass, c.abstractmethods = [] → abcInstantiate c = Except.ok c) := by
  refine ⟨rfl, rfl, ?_⟩
  intro c h
  simp [abcInstantiate, h]

/-- C4 witness: a concrete class with no abstract methods instantiates
without error. -/
theorem C4_enforcement_at_instantiation_time_witness :
    abcInstantiate ⟨pyStr "Bike", []⟩ = Except.ok ⟨pyStr "Bike", []⟩ :=
  C4_enforcement_at_instantiation_time.2.2 ⟨pyStr "Bike", []⟩ rfl

/-- C5 counterexample: the claim that no instantiation mutates any shared
mapping fails on the notebook itself — the first `MyVector()` call of the
singleton cell, run against an empty `Singleton._instances`, inserts a cache
entry, leaving the shared dict changed. -/
theorem C5_counterexample_singleton_cache_mutated :
    ((singletonCall (pyStr "MyVector") () ⟨[], 0⟩).2.1).instances
      ≠ ([] : List (PyStr × Nat)) := by
  decide

/-- C5 (amended): instantiation touches shared state only through the
`Singleton._instances` cache: the first instantiation of a class appends
exactly its own cache entry (and advances the allocation counter), and every
later instantiation of that class leaves the state entirely unchanged. -/
theorem C5_singleton_cache_only_state_change {K A : Type} [DecidableEq K]
    (cls : K) (args : A) (st : SingletonState K) :
    (alookup cls st.instances = none →
      (singletonCall cls args st).2.1
        = ⟨st.instances ++ [(cls, st.nextId)], st.nextId + 1⟩)
    ∧ (∀ v, alookup cls st.instances = some v → (singletonCall cls args st).2.1 = st) := by
  constructor
  · intro h
    rw [singletonCall_uncached cls args st h]
  · intro v h
    rw [singletonCall_cached cls args st h]

/-- C5 witness: the amended statement at the notebook input — the first
`MyVector()` call on the empty cache appends exactly the `MyVector` entry. -/
theorem C5_singleton_cache_only_state_change_witness :
    (singletonCall (pyStr "MyVector") () (⟨[], 0⟩ : SingletonState PyStr)).2.1
      = ⟨[] ++ [(pyStr "MyVector", 0)], 0 + 1⟩ :=
  (C5_singleton_cache_only_state_change (pyStr "MyVector") () ⟨[], 0⟩).1 (by decide)

/-- C7: the cell defining `MyVector` with the function `camel_to_snake_case`
as metaclass prints the construction message followed by the five snake_cased
method names; every non-dunder attribute key is rewritten by `convert` while
the dunder keys are kept unchanged. -/
theorem C7_function_metaclass_cell_output :
    camel_to_snake_case_message (pyStr "MyVector")
        = pyStr "Calling the metaclass camel_to_snake_case to construct class: MyVector"
    ∧ dirNonDunder (camel_to_snake_case_attrs myVectorAttrs) = snakeNames
    ∧ camel_to_snake_case_attrs myVectorAttrs
        = [(pyStr "__module__", 0), (pyStr "__qualname__", 1),
           (pyStr "add_to_vector", 2), (pyStr "subtract_from_vector", 3),
           (pyStr "calculate_dot_product", 4), (pyStr "calculate_cross_product", 5),
           (pyStr "calculate_triple_product", 6)] := by
  refine ⟨?_, rfl, rfl⟩
  rfl

/-- C8 counterexample: the function metaclass and the class metaclass are not
equivalent on all inputs — for the class name `C` (not starting with `__`) and
the attribute dict with single key `__Foo__`, the function keeps the dunder
key while `CamelToSnake.__new__` rewrites it to `___foo__`. -/
theorem C8_counterexample_dunder_key_rewritten :
    camel_to_snake_case_attrs [(pyStr "__Foo__", (0 : Nat))]
        ≠ CamelToSnake_new_attrs (pyStr "C") [(pyStr "__Foo__", (0 : Nat))]
    ∧ startsDunder (pyStr "C") = false := by
  constructor
  · decide
  · decide

/-- C8 (amended): for every class name not starting with `__`, the attribute
dict computed by `CamelToSnake.__new__` equals the one computed by the
function metaclass `camel_to_snake_case` provided every dunder attribute key
is a fixed point of `convert` (as the standard all-lowercase dunder keys such
as `__module__` and `__qualname__` are). -/
theorem C8_camel_function_class_agree {V : Type} (name : PyStr)
    (attrs : List (PyStr × V)) (hname : startsDunder name = false)
    (hdunder : ∀ kv ∈ attrs, startsDunder kv.1 = true → convert kv.1 = kv.1) :
    camel_to_snake_case_attrs attrs = CamelToSnake_new_attrs name attrs := by
  unfold camel_to_snake_case_attrs CamelToSnake_new_attrs
  apply List.foldl_ext
  intro acc kv hkv
  rw [hname]
  by_cases hd : startsDunder kv.1 = true
  · simp only [hd, Bool.not_true, Bool.not_false, if_neg, if_pos, Bool.false_eq_true,
      if_false, if_true]
    rw [hdunder kv hkv hd]
  · simp only [Bool.not_eq_true] at hd
    simp [hd]

/-- C8 witness: the amended equivalence at the notebook-like input whose
dunder keys are all-lowercase. -/
theorem C8_camel_function_class_agree_witness :
    camel_to_snake_case_attrs [(pyStr "__module__", (0 : Nat)), (pyStr "addToVector", 1)]
      = CamelToSnake_new_attrs (pyStr "MyVector")
          [(pyStr "__module__", (0 : Nat)), (pyStr "addToVector", 1)] :=
  C8_camel_function_class_agree (pyStr "MyVector") _ (by decide) (by decide)

/-- C9: `convert` is idempotent; it is the identity on any string containing
no ASCII uppercase letter, and its output never contains one. -/
theorem C9_convert_idempotent (s : PyStr) :
    convert (convert s) = convert s
    ∧ ((∀ c ∈ s, isUpperA c = false) → convert s = s)
    ∧ (∀ c ∈ convert s, isUpperA c = false) :=
  ⟨convert_of_not_upper (convert_not_upper s), fun h => convert_of_not_upper h,
   convert_not_upper s⟩

/-- C9 witness: the identity conjunct at the concrete lowercase string
`add_to_vector`. -/
theorem C9_convert_idempotent_witness :
    convert (pyStr "add_to_vector") = pyStr "add_to_vector" :=
  (C9_convert_idempotent (pyStr "add_to_vector")).2.1 (by decide)

/-- C10: once a class has a cached instance, every later call returns that
cached instance regardless of the arguments passed, leaves the state
unchanged, and does not invoke the constructor (`__new__`/`__init__`) again. -/
theorem C10_singleton_returns_cached {K A : Type} [DecidableEq K] (cls : K)
    (args : A) (st : SingletonState K) (v : Nat)
    (h : alookup cls st.instances = some v) :
    singletonCall cls args st = (some v, st, false) :=
  singletonCall_cached cls args st h

/-- C10 witness: a later call at a concrete cached state returns the cached
instance 42 without invoking the constructor. -/
theorem C10_singleton_returns_cached_witness :
    singletonCall (1 : Nat) () (⟨[(1, 42)], 43⟩ : SingletonState Nat)
      = (some 42, ⟨[(1, 42)], 43⟩, false) :=
  C10_singleton_returns_cached 1 () ⟨[(1, 42)], 43⟩ 42 (by decide)

end Pythess
